import Mathlib

/-!
Verification development for the manifest generator in src/genmanifest.py.

The program is a linear batch transform: walk a directory, parse each
JSON file, group parsed records by their dockerfiledirname field, derive
a channel and a tag list from CI environment variables, and write one
templated YAML manifest file per group.

Modelling choices:
* JSON values decoded by the json library are modelled by the inductive
  type JValue (floats are out of scope for the claims considered here).
* Python str operations that the source applies with single-character
  arguments (split on a comma, replace of one character, strip of
  whitespace) are embedded as executable char-list functions with the
  same semantics, so that the kernel can evaluate them.
* The environment is a record of optional strings: none models an unset
  variable, some s a variable set to s (possibly empty).
* Directory traversal happens before the transform; the model takes the
  resulting file sequence (name, path, parse outcome) as input, which is
  what the walk in lines 23-39 of the source iterates over.
* Writing a file is modelled as emitting a (filename, content) pair; the
  effect of sequential open(..., "w") calls on the working directory is
  the fold applyWrites at the end of this file.
* An uncaught Python exception is modelled by the err field of the run
  result: writes performed before the exception are kept, nothing after
  it is. The exact exception message text is not load bearing and is
  abbreviated. Records with an unhashable grouping key would raise
  inside the grouping loop before any file is written; the model checks
  this up front, which is observationally the same place.
-/

/-- JSON value as decoded by json.load, specialised to the shapes the
claims exercise: objects, strings, integers, booleans, null and arrays. -/
inductive JValue where
  | str  : String → JValue
  | num  : Int → JValue
  | bool : Bool → JValue
  | null : JValue
  | arr  : List JValue → JValue
  | obj  : List (String × JValue) → JValue

mutual
def JValue.decEq : (a b : JValue) → Decidable (a = b)
  | .str a, .str b =>
    if h : a = b then .isTrue (by rw [h]) else .isFalse (fun he => h (JValue.str.inj he))
  | .num a, .num b =>
    if h : a = b then .isTrue (by rw [h]) else .isFalse (fun he => h (JValue.num.inj he))
  | .bool a, .bool b =>
    if h : a = b then .isTrue (by rw [h]) else .isFalse (fun he => h (JValue.bool.inj he))
  | .null, .null => .isTrue rfl
  | .arr a, .arr b =>
    match JValue.decEqList a b with
    | .isTrue h => .isTrue (by rw [h])
    | .isFalse h => .isFalse (fun he => h (JValue.arr.inj he))
  | .obj a, .obj b =>
    match JValue.decEqFields a b with
    | .isTrue h => .isTrue (by rw [h])
    | .isFalse h => .isFalse (fun he => h (JValue.obj.inj he))
  | .str _, .num _ => .isFalse (fun he => JValue.noConfusion he)
  | .str _, .bool _ => .isFalse (fun he => JValue.noConfusion he)
  | .str _, .null => .isFalse (fun he => JValue.noConfusion he)
  | .str _, .arr _ => .isFalse (fun he => JValue.noConfusion he)
  | .str _, .obj _ => .isFalse (fun he => JValue.noConfusion he)
  | .num _, .str _ => .isFalse (fun he => JValue.noConfusion he)
  | .num _, .bool _ => .isFalse (fun he => JValue.noConfusion he)
  | .num _, .null => .isFalse (fun he => JValue.noConfusion he)
  | .num _, .arr _ => .isFalse (fun he => JValue.noConfusion he)
  | .num _, .obj _ => .isFalse (fun he => JValue.noConfusion he)
  | .bool _, .str _ => .isFalse (fun he => JValue.noConfusion he)
  | .bool _, .num _ => .isFalse (fun he => JValue.noConfusion he)
  | .bool _, .null => .isFalse (fun he => JValue.noConfusion he)
  | .bool _, .arr _ => .isFalse (fun he => JValue.noConfusion he)
  | .bool _, .obj _ => .isFalse (fun he => JValue.noConfusion he)
  | .null, .str _ => .isFalse (fun he => JValue.noConfusion he)
  | .null, .num _ => .isFalse (fun he => JValue.noConfusion he)
  | .null, .bool _ => .isFalse (fun he => JValue.noConfusion he)
  | .null, .arr _ => .isFalse (fun he => JValue.noConfusion he)
  | .null, .obj _ => .isFalse (fun he => JValue.noConfusion he)
  | .arr _, .str _ => .isFalse (fun he => JValue.noConfusion he)
  | .arr _, .num _ => .isFalse (fun he => JValue.noConfusion he)
  | .arr _, .bool _ => .isFalse (fun he => JValue.noConfusion he)
  | .arr _, .null => .isFalse (fun he => JValue.noConfusion he)
  | .arr _, .obj _ => .isFalse (fun he => JValue.noConfusion he)
  | .obj _, .str _ => .isFalse (fun he => JValue.noConfusion he)
  | .obj _, .num _ => .isFalse (fun he => JValue.noConfusion he)
  | .obj _, .bool _ => .isFalse (fun he => JValue.noConfusion he)
  | .obj _, .null => .isFalse (fun he => JValue.noConfusion he)
  | .obj _, .arr _ => .isFalse (fun he => JValue.noConfusion he)

def JValue.decEqList : (a b : List JValue) → Decidable (a = b)
  | [], [] => .isTrue rfl
  | [], _ :: _ => .isFalse (fun he => List.noConfusion he)
  | _ :: _, [] => .isFalse (fun he => List.noConfusion he)
  | x :: xs, y :: ys =>
    match JValue.decEq x y with
    | .isFalse h => .isFalse (fun he => h (List.cons.inj he).1)
    | .isTrue h1 =>
      match JValue.decEqList xs ys with
      | .isTrue h2 => .isTrue (by rw [h1, h2])
      | .isFalse h2 => .isFalse (fun he => h2 (List.cons.inj he).2)

def JValue.decEqFields : (a b : List (String × JValue)) → Decidable (a = b)
  | [], [] => .isTrue rfl
  | [], _ :: _ => .isFalse (fun he => List.noConfusion he)
  | _ :: _, [] => .isFalse (fun he => List.noConfusion he)
  | (k, v) :: xs, (k', v') :: ys =>
    if hk : k = k' then
      match JValue.decEq v v' with
      | .isFalse h => .isFalse (fun he => h (congrArg Prod.snd (List.cons.inj he).1))
      | .isTrue h1 =>
        match JValue.decEqFields xs ys with
        | .isTrue h2 => .isTrue (by rw [hk, h1, h2])
        | .isFalse h2 => .isFalse (fun he => h2 (List.cons.inj he).2)
    else .isFalse (fun he => hk (congrArg Prod.fst (List.cons.inj he).1))
end

instance : DecidableEq JValue := JValue.decEq

/-- Join a list of strings with a separator, as str.join does. -/
def sepJoin (sep : String) : List String → String
  | [] => ""
  | [x] => x
  | x :: xs => x ++ sep ++ sepJoin sep xs

mutual
/-- Python repr of a decoded JSON value (quote-escaping corner cases of
repr on strings are out of scope for the claims). -/
def pyRepr : JValue → String
  | .str s => "\x27" ++ s ++ "\x27"
  | .num n => toString n
  | .bool true => "True"
  | .bool false => "False"
  | .null => "None"
  | .arr xs => "[" ++ sepJoin ", " (pyReprList xs) ++ "]"
  | .obj kvs => "\x7b" ++ sepJoin ", " (pyReprFields kvs) ++ "\x7d"

def pyReprList : List JValue → List String
  | [] => []
  | x :: xs => pyRepr x :: pyReprList xs

def pyReprFields : List (String × JValue) → List String
  | [] => []
  | (k, v) :: kvs => ("\x27" ++ k ++ "\x27: " ++ pyRepr v) :: pyReprFields kvs
end

/-- Python str of a decoded JSON value, as an f-string renders it. -/
def pyStr : JValue → String
  | .str s => s
  | v => pyRepr v

/-- Python split on a single comma character, as TAGS.split(",") in line
64 of the source: returns the runs between commas, keeping empty runs. -/
def pySplitComma (s : String) : List String :=
  (s.data.splitOnP (· == ',')).map String.mk

/-- Whitespace characters stripped by Python str.strip: those where
str.isspace() holds, namely the ASCII whitespace controls and space,
the separator controls x1c-x1f, next line x85, and the Unicode space
separators together with the line and paragraph separators. -/
def pyIsSpace (c : Char) : Bool :=
  c = ' ' || c = '\t' || c = '\n' || c = '\x0b' || c = '\x0c' || c = '\x0d' ||
  c = '\x1c' || c = '\x1d' || c = '\x1e' || c = '\x1f' ||
  c = '\x85' || c = '\xa0' || c = '\u1680' ||
  c = '\u2000' || c = '\u2001' || c = '\u2002' || c = '\u2003' || c = '\u2004' ||
  c = '\u2005' || c = '\u2006' || c = '\u2007' || c = '\u2008' || c = '\u2009' ||
  c = '\u200a' || c = '\u2028' || c = '\u2029' || c = '\u202f' || c = '\u205f' ||
  c = '\u3000'

/-- Python str.strip with no argument: drop leading and trailing
whitespace, as tag.strip() in line 64 of the source. -/
def pyStrip (s : String) : String :=
  String.mk (((s.data.dropWhile pyIsSpace).reverse.dropWhile pyIsSpace).reverse)

/-- Python str.replace with a one-character pattern and a one-character
replacement, as used in line 81 of the source: replace all occurrences. -/
def pyReplaceChar (s : String) (a b : Char) : String :=
  String.mk (s.data.map (fun c => if c = a then b else c))

/-- Python str.endswith, as filename.endswith(".json") in line 25. -/
def pyEndsWith (s suffix : String) : Bool :=
  suffix.data.isSuffixOf s.data

/-- One parsed artifact record: the dict built in line 36 of the source,
holding the source file path merged with the decoded JSON object fields
(decoded fields take precedence on a key collision with "filepath"). -/
structure Artifact where
  filepath : String
  fields : List (String × JValue)
  deriving DecidableEq

/-- Dict get with default None: the decoded fields are looked up first
and the reserved "filepath" entry answers only when they miss it. -/
def Artifact.get (a : Artifact) (k : String) : Option JValue :=
  match a.fields.find? (fun kv => kv.1 == k) with
  | some kv => some kv.2
  | none => if k == "filepath" then some (.str a.filepath) else none

/-- Result of open plus json.load on one file, each failure carrying
the exception text: failed is a failure the except clause of line 38
catches (JSONDecodeError on malformed JSON, OSError on an unreadable
file); crashed is one it does not catch, such as the UnicodeDecodeError
raised while reading a file whose bytes are not valid UTF-8; decoded is
a successfully decoded JSON value. -/
inductive ParseOutcome where
  | failed  : String → ParseOutcome
  | crashed : String → ParseOutcome
  | decoded : JValue → ParseOutcome
  deriving DecidableEq

/-- One file met by the directory walk: its base name (tested against
the .json suffix), its joined path, and what json.load does on it. -/
structure FileEntry where
  filename : String
  filepath : String
  outcome : ParseOutcome
  deriving DecidableEq

/-- Collection loop of lines 23-39: skip files without the .json suffix;
log and skip files whose parse raises JSONDecodeError or OSError; let an
exception the except clause does not catch (crashed, e.g. a
UnicodeDecodeError) propagate, aborting the run unlogged; turn a decoded
object into an Artifact; on a decoded non-object the dict merge in line
36 raises an uncaught TypeError, aborting likewise. An abort (third
component some message) discards nothing already collected but stops all
further processing. Returns (logs, artifacts, error). -/
def collectStep : List FileEntry → List String × List Artifact × Option String
  | [] => ([], [], none)
  | f :: rest =>
    if pyEndsWith f.filename ".json" then
      match f.outcome with
      | .failed e =>
        let r := collectStep rest
        (("Invalid JSON: " ++ f.filepath ++ " - " ++ e) :: r.1, r.2.1, r.2.2)
      | .crashed e => ([], [], some e)
      | .decoded (.obj kvs) =>
        let r := collectStep rest
        (("Valid JSON found: " ++ f.filepath) :: r.1, ⟨f.filepath, kvs⟩ :: r.2.1, r.2.2)
      | .decoded _ => ([], [], some "TypeError: merged value is not a mapping")
    else collectStep rest

/-- CI environment: none is an unset variable, some s one set to s. The
KANIKO_ARTIFACTS_DIR variable only selects the directory walked, which
the model receives as an explicit file list, so it is not recorded. -/
structure Env where
  CI_COMMIT_REF_PROTECTED : Option String
  CI_COMMIT_TAG : Option String
  CI_PROJECT_ID : Option String
  CI_COMMIT_SHORT_SHA : Option String
  CI_COMMIT_REF_SLUG : Option String
  TAGS : Option String
  deriving DecidableEq

/-- Line 46 of the source: os.environ.get with default empty string. -/
def refProtectedVal (env : Env) : String := env.CI_COMMIT_REF_PROTECTED.getD ""

/-- Line 47 of the source. -/
def commitTagVal (env : Env) : String := env.CI_COMMIT_TAG.getD ""

/-- Line 48 of the source. -/
def projectIdVal (env : Env) : String := env.CI_PROJECT_ID.getD "UNKNOWN_PROJECT_ID"

/-- Line 49 of the source. -/
def shortShaVal (env : Env) : String := env.CI_COMMIT_SHORT_SHA.getD "0000000"

/-- Line 50 of the source. -/
def refSlugVal (env : Env) : String := env.CI_COMMIT_REF_SLUG.getD ""

/-- Lines 53-56 of the source: the publishing channel. A Python string
is truthy exactly when it is non-empty. -/
def TARGET_PROJECT (env : Env) : String :=
  if refProtectedVal env = "true" ∨ commitTagVal env ≠ "" then "release" else "prerelease"

/-- Lines 59-63 of the source: the comma-separated TAGS string, starting
from the TAGS variable (default: the short SHA), then appending the ref
slug and the commit tag when each is non-empty. -/
def tagsString (env : Env) : String :=
  let t0 := env.TAGS.getD (shortShaVal env)
  let t1 := if refSlugVal env ≠ "" then t0 ++ ("," ++ refSlugVal env) else t0
  if commitTagVal env ≠ "" then t1 ++ ("," ++ commitTagVal env) else t1

/-- Line 64 of the source: split on commas, strip each piece, keep the
non-empty ones in order. -/
def tags_list (env : Env) : List String :=
  ((pySplitComma (tagsString env)).map pyStrip).filter (fun t => t != "")

/-- Line 74 of the source: the grouping key of one artifact, defaulting
to unknown_directory only when the field is absent from the dict. -/
def groupKeyOf (a : Artifact) : JValue :=
  (a.get "dockerfiledirname").getD (.str "unknown_directory")

/-- Effect of grouped_by_dir[dirname].append(artifact) on a defaultdict
represented as an association list in first-seen key order: append to
the existing bucket, or open a new bucket at the end. -/
def groupInsert (gs : List (JValue × List Artifact)) (k : JValue) (a : Artifact) :
    List (JValue × List Artifact) :=
  match gs with
  | [] => [(k, [a])]
  | (k', as) :: rest =>
    if k' = k then (k', as ++ [a]) :: rest
    else (k', as) :: groupInsert rest k a

/-- Lines 71-75 of the source: bucket the artifacts by grouping key,
preserving first-seen key order and input order inside each bucket. -/
def groupedByDir (arts : List Artifact) : List (JValue × List Artifact) :=
  arts.foldl (fun gs a => groupInsert gs (groupKeyOf a) a) []

/-- Bucket stored under one key, empty when the key is absent. -/
def getGroup : List (JValue × List Artifact) → JValue → List Artifact
  | [], _ => []
  | g :: rest, k => if g.1 = k then g.2 else getGroup rest k

/-- Keys Python cannot hash: grouped_by_dir[dirname] raises TypeError on
a decoded list or object before any manifest file is written. -/
def isUnhashable : JValue → Bool
  | .arr _ => true
  | .obj _ => true
  | _ => false

/-- Image reference template of lines 99, 107 and 113 of the source,
identical for the merged image and for every per-arch entry. -/
def imageRef (targetProject projectId dirname shortSha : String) : String :=
  "test.location.com/" ++ targetProject ++ "/builds/" ++ projectId ++ "/" ++
    dirname ++ "/merged:" ++ shortSha

/-- Line 102 of the source: one quoted tag list item. -/
def tagLine (t : String) : String :=
  "  - \"" ++ t ++ "\"\n"

/-- Concatenation of sequentially written pieces. -/
def strConcat : List String → String
  | [] => ""
  | s :: rest => s ++ strConcat rest

/-- Lines 100-102 of the source: the tags block. -/
def tagsBlock (tags : List String) : String :=
  strConcat (tags.map tagLine)

/-- Lines 84-85 of the source: whether the bucket holds an artifact
whose arch field equals the given string. -/
def hasArch (arts : List Artifact) (archName : String) : Bool :=
  arts.any (fun a => a.get "arch" = some (.str archName))

/-- Lines 92-93 of the source: the first artifact of the bucket whose
arch field equals the given string, as next picks it. -/
def firstArch (arts : List Artifact) (archName : String) : Option Artifact :=
  arts.find? (fun a => a.get "arch" = some (.str archName))

/-- Lines 110 and 116 of the source: artifact.get("platform", "linux"),
rendered by the f-string. -/
def platformOf (a : Artifact) : String :=
  match a.get "platform" with
  | some v => pyStr v
  | none => "linux"

/-- OS value written for one architecture: platform of the first
matching artifact, or the default linux when next returned the empty
dict (no matching artifact). -/
def archOs (arts : List Artifact) (archName : String) : String :=
  match firstArch arts archName with
  | some a => platformOf a
  | none => "linux"

/-- Lines 107-110 and 113-116 of the source: one manifests entry. -/
def archEntry (ref archName osName : String) : String :=
  "  - image: " ++ ref ++ "\n" ++ "    platform:\n" ++
    "      architecture: " ++ archName ++ "\n" ++ "      os: " ++ osName ++ "\n"

/-- Lines 106-116 of the source: the entries written under manifests,
amd64 first when present, then arm64 when present. -/
def archEntries (arts : List Artifact) (ref : String) : List String :=
  (if hasArch arts "amd64" then [archEntry ref "amd64" (archOs arts "amd64")] else []) ++
    (if hasArch arts "arm64" then [archEntry ref "arm64" (archOs arts "arm64")] else [])

/-- Line 81 of the source: replace path separators with underscores. -/
def safeDirname (d : String) : String :=
  pyReplaceChar (pyReplaceChar d '/' '_') '\\' '_'

/-- Line 96 of the source: the output filename of one group. -/
def manifestFilename (d : String) : String :=
  "manifest_" ++ safeDirname d ++ ".yaml"

/-- Lines 99-116 of the source: the full text written for one group. -/
def groupContent (tp pid sha : String) (tags : List String) (dirname : String)
    (arts : List Artifact) : String :=
  "image: " ++ imageRef tp pid dirname sha ++ "\n" ++ "tags:\n" ++ tagsBlock tags ++
    "manifests:\n" ++ strConcat (archEntries arts (imageRef tp pid dirname sha))

/-- One write of the loop body, lines 96-116: filename and content. -/
def groupOutput (tp pid sha : String) (tags : List String) (dirname : String)
    (arts : List Artifact) : String × String :=
  (manifestFilename dirname, groupContent tp pid sha tags dirname arts)

/-- Lines 78-118 of the source: process the groups in discovery order.
A non-string grouping key has no replace method, so safe_dirname raises
an uncaught AttributeError there: the writes already made stay, nothing
later is written. -/
def runGroups (tp pid sha : String) (tags : List String) :
    List (JValue × List Artifact) → List (String × String) × Option String
  | [] => ([], none)
  | (k, arts) :: rest =>
    match k with
    | .str d =>
      let r := runGroups tp pid sha tags rest
      (groupOutput tp pid sha tags d arts :: r.1, r.2)
    | _ => ([], some "AttributeError: replace on a non-string dirname")

/-- Observable outcome of one run: diagnostic lines from the collection
loop, the (filename, content) writes in order, and the uncaught
exception if one aborted the run. -/
structure RunResult where
  logs : List String
  writes : List (String × String)
  err : Option String
  deriving DecidableEq

/-- Whole transform of main, lines 7-118, given the walked file list
and the environment: collect artifacts (skipping bad files, aborting on
a decoded non-object), exit early when none were collected, then write
one manifest per group in first-seen order. -/
def run (env : Env) (files : List FileEntry) : RunResult :=
  let c := collectStep files
  match c.2.2 with
  | some e => ⟨c.1, [], some e⟩
  | none =>
    if c.2.1.isEmpty then
      ⟨c.1 ++ ["No valid JSON artifacts found. Exiting."], [], none⟩
    else if c.2.1.any (fun a => isUnhashable (groupKeyOf a)) then
      ⟨c.1, [], some "TypeError: unhashable grouping key"⟩
    else
      let r := runGroups (TARGET_PROJECT env) (projectIdVal env) (shortShaVal env)
        (tags_list env) (groupedByDir c.2.1)
      ⟨c.1, r.1, r.2⟩

/-- Effect on the working directory of the sequence of open(..., "w")
writes: each write stores its content under its filename, replacing
whatever an earlier write stored there. -/
def applyWrites (ws : List (String × String)) : String → Option String :=
  ws.foldl (fun fs w => fun q => if q = w.1 then some w.2 else fs q) (fun _ => none)

/-- Test used to state claims about decoded non-object files: json.load
produced a top level object or not. -/
def isObjVal : JValue → Bool
  | .obj _ => true
  | _ => false

section Helpers

lemma modifyHead_append_left {α : Type} (f : α → α) (l₁ l₂ : List α) (h : l₁ ≠ []) :
    (l₁ ++ l₂).modifyHead f = l₁.modifyHead f ++ l₂ := by
  cases l₁ with
  | nil => exact absurd rfl h
  | cons x xs => simp

lemma splitOnP_append_sep (p : Char → Bool) (l t : List Char) (sep : Char)
    (hsep : p sep = true) (ht : ∀ c ∈ t, p c = false) :
    List.splitOnP p (l ++ sep :: t) = List.splitOnP p l ++ [t] := by
  induction l with
  | nil =>
    simp only [List.nil_append, List.splitOnP_cons, hsep, if_pos]
    rw [List.splitOnP_eq_single]
    · rfl
    · intro x hx
      simp [ht x hx]
  | cons x xs ih =>
    rw [List.cons_append, List.splitOnP_cons, List.splitOnP_cons]
    by_cases hx : p x
    · rw [if_pos hx, if_pos hx, ih, List.cons_append]
    · rw [if_neg hx, if_neg hx, ih,
        modifyHead_append_left _ _ _ (List.splitOnP_ne_nil _ xs)]

lemma pySplitComma_append (x t : String) (ht : ∀ c ∈ t.data, (c == ',') = false) :
    pySplitComma (x ++ ("," ++ t)) = pySplitComma x ++ [t] := by
  unfold pySplitComma
  have hd : (x ++ ("," ++ t)).data = x.data ++ ',' :: t.data := by
    rw [String.data_append, String.data_append]
    rfl
  rw [hd, splitOnP_append_sep _ _ _ _ rfl ht, List.map_append]
  rfl

end Helpers

/-- C3: for every assignment of the CI environment variables, the
channel is the string release exactly when CI_COMMIT_REF_PROTECTED is
set to exactly true or CI_COMMIT_TAG is set to a non-empty string, and
in every other case the channel is the string prerelease. -/
theorem C3_channel_release_iff (env : Env) :
    (TARGET_PROJECT env = "release" ↔
      env.CI_COMMIT_REF_PROTECTED = some "true" ∨
        ∃ t, env.CI_COMMIT_TAG = some t ∧ t ≠ "") ∧
    (¬(env.CI_COMMIT_REF_PROTECTED = some "true" ∨
        ∃ t, env.CI_COMMIT_TAG = some t ∧ t ≠ "") →
      TARGET_PROJECT env = "prerelease") := by
  have hcond : (refProtectedVal env = "true" ∨ commitTagVal env ≠ "") ↔
      (env.CI_COMMIT_REF_PROTECTED = some "true" ∨
        ∃ t, env.CI_COMMIT_TAG = some t ∧ t ≠ "") := by
    cases hp : env.CI_COMMIT_REF_PROTECTED with
    | none => cases ht : env.CI_COMMIT_TAG with
      | none => simp [refProtectedVal, commitTagVal, hp, ht]
      | some t => simp [refProtectedVal, commitTagVal, hp, ht]
    | some s => cases ht : env.CI_COMMIT_TAG with
      | none => simp [refProtectedVal, commitTagVal, hp, ht]
      | some t => simp [refProtectedVal, commitTagVal, hp, ht]
  constructor
  · rw [TARGET_PROJECT]
    by_cases h : refProtectedVal env = "true" ∨ commitTagVal env ≠ ""
    · rw [if_pos h]
      exact iff_of_true rfl (hcond.mp h)
    · rw [if_neg h]
      exact iff_of_false (by decide) (fun hc => h (hcond.mpr hc))
  · intro hc
    rw [TARGET_PROJECT, if_neg (fun h => hc (hcond.mp h))]

theorem C3_channel_release_iff_witness :
    TARGET_PROJECT ⟨none, none, none, none, none, none⟩ = "prerelease" :=
  (C3_channel_release_iff ⟨none, none, none, none, none, none⟩).2 (by simp)

/-- C7: the transform is deterministic: two runs over identical inputs
(same file sequence in the same traversal order and same environment
assignment) produce the same write list, with identical filenames and
byte-identical contents. -/
theorem C7_deterministic (env₁ env₂ : Env) (files₁ files₂ : List FileEntry)
    (he : env₁ = env₂) (hf : files₁ = files₂) :
    run env₁ files₁ = run env₂ files₂ ∧
    (run env₁ files₁).writes = (run env₂ files₂).writes := by
  subst he
  subst hf
  exact ⟨rfl, rfl⟩

theorem C7_deterministic_witness :
    run ⟨none, none, none, none, none, none⟩ [] =
      run ⟨none, none, none, none, none, none⟩ [] :=
  (C7_deterministic ⟨none, none, none, none, none, none⟩
    ⟨none, none, none, none, none, none⟩ [] [] rfl rfl).1

/-- C8: the output filename of every group is manifest_(safe name).yaml
where the safe name replaces every slash and every backslash of the
group key by an underscore; and the filesystem model has no overwrite
protection: after a later write to the same name, the stored content is
the later content, whatever was written before. -/
theorem C8_filename_and_overwrite (tp pid sha : String) (tags : List String)
    (d : String) (arts : List Artifact) (ws : List (String × String)) (n c : String) :
    (groupOutput tp pid sha tags d arts).1 = "manifest_" ++ safeDirname d ++ ".yaml" ∧
    (safeDirname d).data =
      d.data.map (fun ch => if ch = '/' ∨ ch = '\\' then '_' else ch) ∧
    applyWrites (ws ++ [(n, c)]) n = some c := by
  refine ⟨rfl, ?_, ?_⟩
  · show ((d.data.map _).map _) = _
    rw [List.map_map]
    apply List.map_congr_left
    intro ch _
    by_cases h1 : ch = '/'
    · simp [h1]
    · by_cases h2 : ch = '\\'
      · simp [h1, h2]
      · simp [h1, h2]
  · rw [applyWrites, List.foldl_append]
    simp

theorem C8_filename_and_overwrite_witness :
    (groupOutput "p" "i" "s" [] "a/b" []).1 = "manifest_" ++ safeDirname "a/b" ++ ".yaml" ∧
    applyWrites ([("f", "old")] ++ [("f", "new")]) "f" = some "new" :=
  ⟨(C8_filename_and_overwrite "p" "i" "s" [] "a/b" [] [] "f" "old").1,
    (C8_filename_and_overwrite "p" "i" "s" [] "a/b" [] [("f", "old")] "f" "new").2.2⟩

section GroupingLemmas

lemma getGroup_cons (k0 : JValue) (as0 : List Artifact)
    (rest : List (JValue × List Artifact)) (k : JValue) :
    getGroup ((k0, as0) :: rest) k = if k0 = k then as0 else getGroup rest k := rfl

lemma getGroup_groupInsert (gs : List (JValue × List Artifact)) (k' k : JValue)
    (a : Artifact) :
    getGroup (groupInsert gs k' a) k = getGroup gs k ++ (if k' = k then [a] else []) := by
  induction gs with
  | nil =>
    rw [show groupInsert [] k' a = [(k', [a])] from rfl, getGroup_cons]
    by_cases h : k' = k
    · rw [if_pos h, if_pos h]
      rfl
    · rw [if_neg h, if_neg h]
      rfl
  | cons hd rest ih =>
    obtain ⟨k0, as0⟩ := hd
    rw [show groupInsert ((k0, as0) :: rest) k' a =
        if k0 = k' then (k0, as0 ++ [a]) :: rest
        else (k0, as0) :: groupInsert rest k' a from rfl]
    by_cases h0 : k0 = k'
    · rw [if_pos h0, getGroup_cons, getGroup_cons]
      by_cases hk : k0 = k
      · have hk' : k' = k := h0 ▸ hk
        rw [if_pos hk, if_pos hk, if_pos hk']
      · have hk' : ¬ k' = k := fun h => hk (h0.trans h)
        rw [if_neg hk, if_neg hk, if_neg hk', List.append_nil]
    · rw [if_neg h0, getGroup_cons, getGroup_cons]
      by_cases hk : k0 = k
      · have hk' : ¬ k' = k := fun h => h0 (hk.trans h.symm)
        rw [if_pos hk, if_pos hk, if_neg hk', List.append_nil]
      · rw [if_neg hk, if_neg hk]
        exact ih

lemma getGroup_foldl (arts : List Artifact) (gs : List (JValue × List Artifact))
    (k : JValue) :
    getGroup (arts.foldl (fun gs a => groupInsert gs (groupKeyOf a) a) gs) k =
      getGroup gs k ++ arts.filter (fun a => groupKeyOf a = k) := by
  induction arts generalizing gs with
  | nil => simp
  | cons a arts ih =>
    rw [List.foldl_cons, ih, getGroup_groupInsert, List.filter_cons]
    by_cases h : groupKeyOf a = k
    · rw [if_pos h]
      simp [h, List.append_assoc]
    · rw [if_neg h]
      simp [h]

end GroupingLemmas

/-- C1 (amended): the Grouper assigns every artifact to the group named
by its dockerfiledirname field value, and assigns the default key
unknown_directory exactly when that field is absent from the record: the
bucket stored under any key k holds, in input order, precisely the
artifacts whose grouping key is k. An artifact whose dockerfiledirname
is present with the empty string as value lands in the group named by
the empty string, not in unknown_directory. -/
theorem C1_grouping_amended (arts : List Artifact) (k : JValue) (a : Artifact) :
    getGroup (groupedByDir arts) k = arts.filter (fun a' => groupKeyOf a' = k) ∧
    (a.get "dockerfiledirname" = none → groupKeyOf a = .str "unknown_directory") ∧
    (∀ v, a.get "dockerfiledirname" = some v → groupKeyOf a = v) := by
  refine ⟨?_, ?_, ?_⟩
  · have h := getGroup_foldl arts [] k
    rw [show getGroup [] k = [] from rfl, List.nil_append] at h
    exact h
  · intro h
    rw [groupKeyOf, h]
    rfl
  · intro v h
    rw [groupKeyOf, h]
    rfl

theorem C1_grouping_amended_witness :
    getGroup (groupedByDir [Artifact.mk "w.json" [("dockerfiledirname", .str "app")],
        Artifact.mk "w2.json" []]) (JValue.str "app") =
      [Artifact.mk "w.json" [("dockerfiledirname", .str "app")]] ∧
    groupKeyOf (Artifact.mk "w2.json" []) = .str "unknown_directory" := by
  constructor
  · rw [(C1_grouping_amended [Artifact.mk "w.json" [("dockerfiledirname", .str "app")],
        Artifact.mk "w2.json" []] (JValue.str "app") (Artifact.mk "w2.json" [])).1]
    decide
  · exact (C1_grouping_amended [] (JValue.str "app")
      (Artifact.mk "w2.json" [])).2.1 rfl

/-- C1 counterexample: an artifact whose dockerfiledirname field is
present but equal to the empty string is not assigned to the
unknown_directory group, as the claim states, but to a group whose name
is the empty string. -/
theorem C1_counterexample :
    (Artifact.mk "p.json" [("dockerfiledirname", .str "")]).get "dockerfiledirname" =
      some (.str "") ∧
    groupedByDir [Artifact.mk "p.json" [("dockerfiledirname", .str "")]] =
      [(JValue.str "", [Artifact.mk "p.json" [("dockerfiledirname", .str "")]])] ∧
    getGroup (groupedByDir [Artifact.mk "p.json" [("dockerfiledirname", .str "")]])
      (JValue.str "unknown_directory") = [] := by
  decide

/-- C4: in every group holding both an amd64 and an arm64 artifact, the
emitted entry list is exactly the amd64 entry followed by the arm64
entry, whatever the input order was; an architecture with no matching
artifact contributes no entry; the os value of each entry comes from the
first artifact of the group whose arch field matches, and defaults to
linux when no artifact matches or the matching artifact has no platform
field. -/
theorem C4_arch_order_and_os (arts : List Artifact) (ref : String) :
    (hasArch arts "amd64" = true → hasArch arts "arm64" = true →
      archEntries arts ref =
        [archEntry ref "amd64" (archOs arts "amd64"),
          archEntry ref "arm64" (archOs arts "arm64")]) ∧
    (hasArch arts "amd64" = false →
      archEntries arts ref =
        if hasArch arts "arm64" then [archEntry ref "arm64" (archOs arts "arm64")] else []) ∧
    (hasArch arts "arm64" = false →
      archEntries arts ref =
        if hasArch arts "amd64" then [archEntry ref "amd64" (archOs arts "amd64")] else []) ∧
    (∀ archName, (∀ a ∈ arts, ¬ a.get "arch" = some (.str archName)) →
      hasArch arts archName = false ∧ archOs arts archName = "linux") ∧
    (∀ pre a post archName, arts = pre ++ a :: post →
      (∀ b ∈ pre, ¬ b.get "arch" = some (.str archName)) →
      a.get "arch" = some (.str archName) →
      firstArch arts archName = some a ∧ archOs arts archName = platformOf a) ∧
    (∀ b : Artifact, b.get "platform" = none → platformOf b = "linux") := by
  refine ⟨?_, ?_, ?_, ?_, ?_, ?_⟩
  · intro h1 h2
    simp [archEntries, h1, h2]
  · intro h1
    simp [archEntries, h1]
  · intro h2
    simp [archEntries, h2]
  · intro archName h
    have hf : firstArch arts archName = none :=
      List.find?_eq_none.mpr (fun x hx => by simpa using h x hx)
    constructor
    · exact List.any_eq_false.mpr (fun x hx => by simpa using h x hx)
    · simp [archOs, hf]
  · intro pre a post archName he hpre ha
    have hfind : firstArch arts archName = some a := by
      rw [he, firstArch, List.find?_append]
      have hpre' :
          List.find? (fun b => b.get "arch" = some (.str archName)) pre = none :=
        List.find?_eq_none.mpr (fun b hb => by simpa using hpre b hb)
      rw [hpre', Option.none_or]
      exact List.find?_cons_of_pos _ (by simpa using ha)
    exact ⟨hfind, by simp [archOs, hfind]⟩
  · intro b h
    simp [platformOf, h]

theorem C4_arch_order_and_os_witness :
    archEntries
      [Artifact.mk "y.json" [("arch", .str "arm64")],
        Artifact.mk "x.json" [("arch", .str "amd64"), ("platform", .str "linux")]] "R" =
      [archEntry "R" "amd64" "linux", archEntry "R" "arm64" "linux"] := by
  rw [(C4_arch_order_and_os
    [Artifact.mk "y.json" [("arch", .str "arm64")],
      Artifact.mk "x.json" [("arch", .str "amd64"), ("platform", .str "linux")]] "R").1
    (by decide) (by decide)]
  decide

/-- C6: in every manifest document produced, the merged top level image
reference and the image reference inside each per-architecture entry are
the same string, following the template
test.location.com/(channel)/builds/(project id)/(group key)/merged:(short sha);
a per-arch entry consists of exactly that shared reference plus a
platform block with its architecture and os values. -/
theorem C6_image_refs_identical (tp pid sha : String) (tags : List String)
    (d : String) (arts : List Artifact) :
    imageRef tp pid d sha =
      "test.location.com/" ++ tp ++ "/builds/" ++ pid ++ "/" ++ d ++ "/merged:" ++ sha ∧
    groupContent tp pid sha tags d arts =
      "image: " ++ imageRef tp pid d sha ++ "\n" ++ "tags:\n" ++ tagsBlock tags ++
        "manifests:\n" ++ strConcat (archEntries arts (imageRef tp pid d sha)) ∧
    (∀ e ∈ archEntries arts (imageRef tp pid d sha), ∃ archName osName,
      e = "  - image: " ++ imageRef tp pid d sha ++ "\n" ++ "    platform:\n" ++
        "      architecture: " ++ archName ++ "\n" ++ "      os: " ++ osName ++ "\n") := by
  refine ⟨rfl, rfl, ?_⟩
  intro e he
  rw [archEntries] at he
  rcases List.mem_append.mp he with h | h
  · by_cases h1 : hasArch arts "amd64"
    · rw [if_pos h1] at h
      rw [List.mem_singleton.mp h]
      exact ⟨"amd64", archOs arts "amd64", rfl⟩
    · rw [if_neg h1] at h
      exact absurd h (List.not_mem_nil e)
  · by_cases h2 : hasArch arts "arm64"
    · rw [if_pos h2] at h
      rw [List.mem_singleton.mp h]
      exact ⟨"arm64", archOs arts "arm64", rfl⟩
    · rw [if_neg h2] at h
      exact absurd h (List.not_mem_nil e)

theorem C6_image_refs_identical_witness :
    ∃ archName osName,
      archEntry (imageRef "p" "i" "a" "s") "amd64" "linux" =
        "  - image: " ++ imageRef "p" "i" "a" "s" ++ "\n" ++ "    platform:\n" ++
          "      architecture: " ++ archName ++ "\n" ++ "      os: " ++ osName ++ "\n" :=
  (C6_image_refs_identical "p" "i" "s" [] "a"
    [Artifact.mk "z.json" [("arch", .str "amd64")]]).2.2
    (archEntry (imageRef "p" "i" "a" "s") "amd64" "linux") (by decide)

/-- C10: a group in which no artifact has arch equal to amd64 or arm64
still gets its manifest file written: the loop body emits the filename
manifest_(safe name).yaml with the merged image line, the tags block and
a manifests: header followed by no entries, and the group loop includes
that write whenever the group is present (string keys throughout). -/
theorem C10_empty_manifests (tp pid sha : String) (tags : List String) (d : String)
    (arts : List Artifact) (gs : List (JValue × List Artifact)) :
    ((∀ a ∈ arts, ¬ a.get "arch" = some (.str "amd64") ∧
        ¬ a.get "arch" = some (.str "arm64")) →
      groupOutput tp pid sha tags d arts =
        ("manifest_" ++ safeDirname d ++ ".yaml",
          "image: " ++ imageRef tp pid d sha ++ "\n" ++ "tags:\n" ++ tagsBlock tags ++
            "manifests:\n")) ∧
    ((JValue.str d, arts) ∈ gs → (∀ g ∈ gs, ∃ s, g.1 = JValue.str s) →
      groupOutput tp pid sha tags d arts ∈ (runGroups tp pid sha tags gs).1) := by
  constructor
  · intro h
    have h1 : hasArch arts "amd64" = false :=
      List.any_eq_false.mpr (fun x hx => by simpa using (h x hx).1)
    have h2 : hasArch arts "arm64" = false :=
      List.any_eq_false.mpr (fun x hx => by simpa using (h x hx).2)
    rw [groupOutput, groupContent, manifestFilename]
    rw [show archEntries arts (imageRef tp pid d sha) = [] by simp [archEntries, h1, h2]]
    rw [show strConcat [] = "" from rfl, String.append_empty]
  · intro hmem hstr
    induction gs with
    | nil => exact absurd hmem (List.not_mem_nil _)
    | cons g rest ih =>
      obtain ⟨k0, as0⟩ := g
      obtain ⟨s, hs⟩ := hstr (k0, as0) (List.mem_cons_self _ _)
      rw [show k0 = JValue.str s from hs]
      rw [show k0 = JValue.str s from hs] at hmem
      rcases List.mem_cons.mp hmem with h | h
      · obtain ⟨hk, ha⟩ := Prod.mk.inj h
        rw [show runGroups tp pid sha tags ((JValue.str s, as0) :: rest) =
            (groupOutput tp pid sha tags s as0 :: (runGroups tp pid sha tags rest).1,
              (runGroups tp pid sha tags rest).2) from rfl]
        rw [show d = s from JValue.str.inj hk, show arts = as0 from ha]
        exact List.mem_cons_self _ _
      · rw [show runGroups tp pid sha tags ((JValue.str s, as0) :: rest) =
            (groupOutput tp pid sha tags s as0 :: (runGroups tp pid sha tags rest).1,
              (runGroups tp pid sha tags rest).2) from rfl]
        exact List.mem_cons_of_mem _
          (ih h (fun g hg => hstr g (List.mem_cons_of_mem _ hg)))

theorem C10_empty_manifests_witness :
    groupOutput "p" "i" "s" ["t1"] "app"
        [Artifact.mk "n.json" [("dockerfiledirname", .str "app")]] =
      ("manifest_" ++ safeDirname "app" ++ ".yaml",
        "image: " ++ imageRef "p" "i" "app" "s" ++ "\n" ++ "tags:\n" ++
          tagsBlock ["t1"] ++ "manifests:\n") ∧
    groupOutput "p" "i" "s" ["t1"] "app"
        [Artifact.mk "n.json" [("dockerfiledirname", .str "app")]] ∈
      (runGroups "p" "i" "s" ["t1"]
        [(JValue.str "app", [Artifact.mk "n.json" [("dockerfiledirname", .str "app")]])]).1 := by
  constructor
  · exact (C10_empty_manifests "p" "i" "s" ["t1"] "app"
      [Artifact.mk "n.json" [("dockerfiledirname", .str "app")]] []).1 (by decide)
  · refine (C10_empty_manifests "p" "i" "s" ["t1"] "app"
      [Artifact.mk "n.json" [("dockerfiledirname", .str "app")]]
      [(JValue.str "app", [Artifact.mk "n.json" [("dockerfiledirname", .str "app")]])]).2
      (List.mem_singleton.mpr rfl) ?_
    intro g hg
    rw [List.mem_singleton.mp hg]
    exact ⟨"app", rfl⟩

section CollectLemmas

lemma collect_allFailed (files : List FileEntry)
    (h : ∀ f ∈ files, pyEndsWith f.filename ".json" = true → ∃ e, f.outcome = .failed e) :
    (collectStep files).2.1 = [] ∧ (collectStep files).2.2 = none ∧
    ∀ f ∈ files, ∀ e, pyEndsWith f.filename ".json" = true → f.outcome = .failed e →
      ("Invalid JSON: " ++ f.filepath ++ " - " ++ e) ∈ (collectStep files).1 := by
  induction files with
  | nil => exact ⟨rfl, rfl, fun f hf => absurd hf (List.not_mem_nil f)⟩
  | cons f rest ih =>
    obtain ⟨ih1, ih2, ih3⟩ := ih (fun g hg => h g (List.mem_cons_of_mem _ hg))
    by_cases hj : pyEndsWith f.filename ".json" = true
    · obtain ⟨e, he⟩ := h f (List.mem_cons_self _ _) hj
      have hstep : collectStep (f :: rest) =
          (("Invalid JSON: " ++ f.filepath ++ " - " ++ e) :: (collectStep rest).1,
            (collectStep rest).2.1, (collectStep rest).2.2) := by
        simp only [collectStep, hj, he, if_true]
      refine ⟨by rw [hstep]; exact ih1, by rw [hstep]; exact ih2, ?_⟩
      intro g hg e' hje' hfe'
      rcases List.mem_cons.mp hg with hgf | hg'
      · subst hgf
        have hee : e = e' := by
          rw [he] at hfe'
          exact ParseOutcome.failed.inj hfe'
        rw [hstep, hee]
        exact List.mem_cons_self _ _
      · rw [hstep]
        exact List.mem_cons_of_mem _ (ih3 g hg' e' hje' hfe')
    · have hstep : collectStep (f :: rest) = collectStep rest := by
        simp [collectStep, hj]
      refine ⟨by rw [hstep]; exact ih1, by rw [hstep]; exact ih2, ?_⟩
      intro g hg e' hje' hfe'
      rcases List.mem_cons.mp hg with hgf | hg'
      · subst hgf
        exact absurd hje' hj
      · rw [hstep]
        exact ih3 g hg' e' hje' hfe'

lemma collect_err_of_nonobj (files : List FileEntry)
    (h : ∃ f ∈ files, pyEndsWith f.filename ".json" = true ∧
        ∃ v, f.outcome = .decoded v ∧ isObjVal v = false) :
    (collectStep files).2.2.isSome = true := by
  induction files with
  | nil =>
    obtain ⟨f, hf, _⟩ := h
    exact absurd hf (List.not_mem_nil f)
  | cons f rest ih =>
    obtain ⟨g, hg, hjg, v, hv, hnv⟩ := h
    rcases List.mem_cons.mp hg with hgf | hg'
    · subst hgf
      cases v with
      | obj kvs => simp [isObjVal] at hnv
      | str s => simp [collectStep, hjg, hv]
      | num n => simp [collectStep, hjg, hv]
      | bool b => simp [collectStep, hjg, hv]
      | null => simp [collectStep, hjg, hv]
      | arr xs => simp [collectStep, hjg, hv]
    · have ihr := ih ⟨g, hg', hjg, v, hv, hnv⟩
      by_cases hj : pyEndsWith f.filename ".json" = true
      · cases ho : f.outcome with
        | failed e => simpa [collectStep, hj, ho] using ihr
        | crashed e => simp [collectStep, hj, ho]
        | decoded w =>
          cases w with
          | obj kvs => simpa [collectStep, hj, ho] using ihr
          | str s => simp [collectStep, hj, ho]
          | num n => simp [collectStep, hj, ho]
          | bool b => simp [collectStep, hj, ho]
          | null => simp [collectStep, hj, ho]
          | arr xs => simp [collectStep, hj, ho]
      · simpa [collectStep, hj] using ihr

end CollectLemmas

/-- C5 (amended): when every file of the walked list carrying the .json
suffix fails to parse with a failure the except clause of line 38
catches (malformed JSON raising JSONDecodeError, or an unreadable file
raising OSError), the run writes no manifest file, ends without an
uncaught exception, and logs one Invalid JSON line naming the path and
the error description of each failed file. A .json file whose bytes are
not valid UTF-8 also fails to parse, but its UnicodeDecodeError is not
caught, so the original unrestricted claim fails on it. -/
theorem C5_all_invalid_graceful (env : Env) (files : List FileEntry)
    (h : ∀ f ∈ files, pyEndsWith f.filename ".json" = true → ∃ e, f.outcome = .failed e) :
    (run env files).writes = [] ∧ (run env files).err = none ∧
    ∀ f ∈ files, ∀ e, pyEndsWith f.filename ".json" = true → f.outcome = .failed e →
      ("Invalid JSON: " ++ f.filepath ++ " - " ++ e) ∈ (run env files).logs := by
  obtain ⟨h1, h2, h3⟩ := collect_allFailed files h
  have hrun : run env files =
      ⟨(collectStep files).1 ++ ["No valid JSON artifacts found. Exiting."], [], none⟩ := by
    rw [run]
    simp only [h1, h2, List.isEmpty_nil, if_true]
  refine ⟨by rw [hrun], by rw [hrun], ?_⟩
  intro f hf e hje hfe
  rw [hrun]
  exact List.mem_append_left _ (h3 f hf e hje hfe)

theorem C5_all_invalid_graceful_witness :
    (run ⟨none, none, none, none, none, none⟩
      [FileEntry.mk "a.json" "d/a.json" (.failed "boom")]).writes = [] ∧
    (run ⟨none, none, none, none, none, none⟩
      [FileEntry.mk "a.json" "d/a.json" (.failed "boom")]).err = none ∧
    ("Invalid JSON: " ++ "d/a.json" ++ " - " ++ "boom") ∈
      (run ⟨none, none, none, none, none, none⟩
        [FileEntry.mk "a.json" "d/a.json" (.failed "boom")]).logs := by
  have hc := C5_all_invalid_graceful ⟨none, none, none, none, none, none⟩
    [FileEntry.mk "a.json" "d/a.json" (.failed "boom")]
    (fun f hf _ => by
      rw [List.mem_singleton.mp hf]
      exact ⟨"boom", rfl⟩)
  exact ⟨hc.1, hc.2.1,
    hc.2.2 (FileEntry.mk "a.json" "d/a.json" (.failed "boom"))
      (List.mem_singleton.mpr rfl) "boom" (by decide) rfl⟩

/-- C5 counterexample: a directory whose single .json file fails to
parse because its bytes are not valid UTF-8. Reading it raises
UnicodeDecodeError, which the except clause catching only
JSONDecodeError and OSError lets propagate: the run terminates with an
uncaught exception and logs nothing, contradicting the claimed
logged-and-skipped, zero-output, successful termination. -/
theorem C5_counterexample :
    (run ⟨none, none, none, none, none, none⟩
      [FileEntry.mk "a.json" "d/a.json"
        (.crashed "UnicodeDecodeError: invalid start byte")]).err =
      some "UnicodeDecodeError: invalid start byte" ∧
    (run ⟨none, none, none, none, none, none⟩
      [FileEntry.mk "a.json" "d/a.json"
        (.crashed "UnicodeDecodeError: invalid start byte")]).logs = [] ∧
    (run ⟨none, none, none, none, none, none⟩
      [FileEntry.mk "a.json" "d/a.json"
        (.crashed "UnicodeDecodeError: invalid start byte")]).writes = [] := by
  decide

/-- C9: when some walked .json file decodes to syntactically valid JSON
whose top level value is not an object, the dict merge of line 36 raises
an uncaught TypeError: the run ends with an error and writes no manifest
file, instead of logging and skipping the file as for malformed JSON. -/
theorem C9_nonobject_typeerror (env : Env) (files : List FileEntry)
    (h : ∃ f ∈ files, pyEndsWith f.filename ".json" = true ∧
        ∃ v, f.outcome = .decoded v ∧ isObjVal v = false) :
    (run env files).err.isSome = true ∧ (run env files).writes = [] := by
  have hc := collect_err_of_nonobj files h
  obtain ⟨e, he⟩ := Option.isSome_iff_exists.mp hc
  constructor
  · rw [run]
    simp only [he, Option.isSome_some]
  · rw [run]
    simp only [he]

theorem C9_nonobject_typeerror_witness :
    (run ⟨none, none, none, none, none, none⟩
      [FileEntry.mk "a.json" "d/a.json" (.decoded (.arr []))]).err.isSome = true ∧
    (run ⟨none, none, none, none, none, none⟩
      [FileEntry.mk "a.json" "d/a.json" (.decoded (.arr []))]).writes = [] :=
  C9_nonobject_typeerror ⟨none, none, none, none, none, none⟩
    [FileEntry.mk "a.json" "d/a.json" (.decoded (.arr []))]
    ⟨FileEntry.mk "a.json" "d/a.json" (.decoded (.arr [])),
      List.mem_singleton.mpr rfl, by decide, .arr [], rfl, rfl⟩

/-- C2 (amended): the resolved tag list starts from the TAGS variable
(default: the short SHA), appends the ref slug when present, then the
commit tag when present, splits on commas, strips each piece, drops the
empty pieces and keeps order and duplicates; consequently, whenever
CI_COMMIT_TAG is set to a non-empty value that contains no comma and
carries no leading or trailing whitespace, that value is the last
element of the resolved tag list. A commit tag containing a comma is
split apart, and one that strips to empty is dropped, so the original
claim fails for those values. -/
theorem C2_tag_last_amended (env : Env) (t : String)
    (h : env.CI_COMMIT_TAG = some t) (hne : t ≠ "")
    (hcomma : ∀ c ∈ t.data, (c == ',') = false) (hstrip : pyStrip t = t) :
    (tags_list env).getLast? = some t := by
  have hval : commitTagVal env = t := by
    rw [commitTagVal, h]
    rfl
  have hts : tagsString env =
      (if refSlugVal env ≠ "" then
        env.TAGS.getD (shortShaVal env) ++ ("," ++ refSlugVal env)
      else env.TAGS.getD (shortShaVal env)) ++ ("," ++ t) := by
    simp only [tagsString]
    rw [hval, if_pos hne]
  have hft : List.filter (fun s => s != "") [t] = [t] := by
    simp [hne]
  rw [tags_list, hts, pySplitComma_append _ _ hcomma, List.map_append,
    show List.map pyStrip [t] = [t] by simp [hstrip],
    List.filter_append, hft]
  exact List.getLast?_concat _

theorem C2_tag_last_amended_witness :
    (tags_list ⟨none, some "v1.2", none, none, some "main", none⟩).getLast? = some "v1.2" :=
  C2_tag_last_amended ⟨none, some "v1.2", none, none, some "main", none⟩ "v1.2" rfl
    (by decide) (by decide) (by decide)

/-- C2 counterexample: with CI_COMMIT_TAG set to the non-empty value
a,b (and every other variable unset) the resolved tag list ends with b,
not with the value a,b itself, because the comma inside the value is
split; and with CI_COMMIT_TAG set to a single space, the piece strips
to empty and is dropped, so the list does not end with that value
either. -/
theorem C2_counterexample :
    (⟨none, some "a,b", none, none, none, none⟩ : Env).CI_COMMIT_TAG = some "a,b" ∧
    "a,b" ≠ "" ∧
    tags_list ⟨none, some "a,b", none, none, none, none⟩ = ["0000000", "a", "b"] ∧
    (tags_list ⟨none, some "a,b", none, none, none, none⟩).getLast? ≠ some "a,b" ∧
    (⟨none, some " ", none, none, none, none⟩ : Env).CI_COMMIT_TAG = some " " ∧
    " " ≠ "" ∧
    tags_list ⟨none, some " ", none, none, none, none⟩ = ["0000000"] ∧
    (tags_list ⟨none, some " ", none, none, none, none⟩).getLast? ≠ some " " := by
  decide
